import Mathlib

/-!
Shallow embedding of the offline-first sync engine of `eco-museum-ar`
(`src/lib/localStorage.ts`: the `syncStorage` / `contentStorage` /
`cacheStorage` objects and the `SyncManager` class).

Timestamps (`created_at`, `updated_at`, `Date.now()`) are modelled as `Nat`
(JS `Date` comparison is numeric).  The AsyncStorage content rows (one key
per content id) are modelled as a `List ContentItem` with map semantics:
`saveContent` replaces the row with the same id or appends.  Remote calls
and the clock are supplied by a `RemoteEnv` record; an upload outcome of
`none` means the remote insert succeeded, `some msg` means it failed with
message `msg`.
-/

/-- `sync_status` field values: 'pending' | 'synced' | 'failed'. -/
inductive SyncStat where
  | pending
  | synced
  | failed
deriving DecidableEq, Repr

/-- Content `type` field values: 'marker' | 'object' | 'text' | 'audio' | 'model'. -/
inductive CType where
  | marker
  | object
  | text
  | audio
  | model
deriving DecidableEq, Repr

/-- `ContentItem` of `localStorage.ts`.  The opaque `data: any` payload is an
uninterpreted `String`; coordinates are `Int` (their arithmetic is unused by
the sync engine). -/
structure ContentItem where
  id : String
  user_id : String
  title : String
  description : Option String
  type : CType
  position_lat : Int
  position_lng : Int
  position_alt : Option Int
  data : String
  is_public : Bool
  created_at : Nat
  updated_at : Nat
  sync_status : Option SyncStat
  local_id : Option String
deriving DecidableEq, Repr

/-- `SyncStatus` record persisted under the `sync_status` key. -/
structure SyncStatus where
  last_sync : Option Nat
  pending_uploads : List String
  pending_deletions : List String
  is_online : Bool
deriving DecidableEq, Repr

/-- The cache blob written by `cacheStorage.saveContentCache`:
`{ contents, timestamp, maxAge }`. -/
structure CacheData where
  contents : List ContentItem
  timestamp : Nat
  maxAge : Nat
deriving DecidableEq, Repr

/-- The durable AsyncStorage state the sync engine touches: the per-id
content rows, the singleton sync-status record, and the optional cache
blob. -/
structure LocalState where
  content : List ContentItem
  syncStatus : SyncStatus
  cache : Option CacheData
deriving DecidableEq, Repr

/-- `SyncManager` in-memory fields plus the durable state. -/
structure ManagerState where
  isOnline : Bool
  isSyncing : Bool
  store : LocalState
deriving DecidableEq, Repr

/-- `SyncResult` returned by `syncContent`. -/
structure SyncResult where
  success : Bool
  uploaded : Nat
  downloaded : Nat
  failed : Nat
  errors : List String
deriving DecidableEq, Repr

/-- Environment for one sync cycle: remote-call outcomes and the clock.
`uploadOutcome id = none` means `arContentUtils.createARContent` succeeds for
the item with that id; `some msg` means it errors with message `msg`. -/
structure RemoteEnv where
  uploadOutcome : String → Option String
  userContent : Except String (List ContentItem)
  currentLocation : Bool
  nearbyContent : Except String (List ContentItem)
  now : Nat

/-! ## contentStorage -/

/-- Map-semantics write of one content row (`contentStorage.saveContent`,
success path): replace the row keyed by `c.id`, or append if absent. -/
def saveContentPure : List ContentItem → ContentItem → List ContentItem
  | [], c => [c]
  | x :: xs, c => if x.id = c.id then c :: xs else x :: saveContentPure xs c

/-- `contentStorage.getContentById`: the row keyed by `id`, if any. -/
def getContentById : List ContentItem → String → Option ContentItem
  | [], _ => none
  | x :: xs, id => if x.id = id then some x else getContentById xs id

/-- Insert into a list kept descending by `created_at`. -/
def insertByCreatedDesc (c : ContentItem) : List ContentItem → List ContentItem
  | [] => [c]
  | x :: xs => if x.created_at ≤ c.created_at then c :: x :: xs else x :: insertByCreatedDesc c xs

/-- The sort done by `contentStorage.getAllContent`:
`sort((a, b) => new Date(b.created_at) - new Date(a.created_at))`. -/
def sortByCreatedDesc : List ContentItem → List ContentItem
  | [] => []
  | x :: xs => insertByCreatedDesc x (sortByCreatedDesc xs)

/-- `contentStorage.getAllContent`: every content row, newest first. -/
def getAllContent (st : LocalState) : List ContentItem :=
  sortByCreatedDesc st.content

/-- `contentStorage.getPendingSyncContent`: rows whose `sync_status` is
`'pending'` (note: selected by row status, not by the pending-uploads id
set). -/
def getPendingSyncContent (st : LocalState) : List ContentItem :=
  (getAllContent st).filter (fun c => decide (c.sync_status = some SyncStat.pending))

/-- `{ ...c, sync_status: s }`. -/
def markStatus (c : ContentItem) (s : SyncStat) : ContentItem :=
  { c with sync_status := some s }

/-- `contentStorage.updateSyncStatus`: re-save the row with the new status;
no-op when the id is absent. -/
def updateSyncStatus (st : LocalState) (id : String) (s : SyncStat) : LocalState :=
  match getContentById st.content id with
  | none => st
  | some c => { st with content := saveContentPure st.content (markStatus c s) }

/-! ## syncStorage -/

/-- `syncStorage.addPendingUpload`: append the id to `pending_uploads`
unless already present.  `pending_deletions` is not consulted. -/
def addPendingUpload (s : SyncStatus) (id : String) : SyncStatus :=
  if id ∈ s.pending_uploads then s
  else { s with pending_uploads := s.pending_uploads ++ [id] }

/-- `syncStorage.addPendingDeletion`: append the id to `pending_deletions`
unless already present.  `pending_uploads` is not consulted or modified. -/
def addPendingDeletion (s : SyncStatus) (id : String) : SyncStatus :=
  if id ∈ s.pending_deletions then s
  else { s with pending_deletions := s.pending_deletions ++ [id] }

/-- `syncStorage.removeFromPending`: filter the id out of both sets. -/
def removeFromPending (s : SyncStatus) (id : String) : SyncStatus :=
  { s with
    pending_uploads := s.pending_uploads.filter (fun x => decide (x ≠ id))
    pending_deletions := s.pending_deletions.filter (fun x => decide (x ≠ id)) }

/-- `syncStorage.updateLastSync`: stamp `last_sync` with the current time. -/
def updateLastSync (st : LocalState) (now : Nat) : LocalState :=
  { st with syncStatus := { st.syncStatus with last_sync := some now } }

/-! ## cacheStorage -/

/-- `24 * 60 * 60 * 100`, the default `maxAge` of
`cacheStorage.saveContentCache` (the source's literal scaling factor). -/
def cacheDefaultMaxAge : Nat := 24 * 60 * 60 * 100

/-- `cacheStorage.saveContentCache` (success path): replace the snapshot
wholesale, stamped with the current time. -/
def saveContentCachePure (st : LocalState) (items : List ContentItem) (now : Nat) : LocalState :=
  { st with cache := some ⟨items, now, cacheDefaultMaxAge⟩ }

/-- `cacheStorage.clearContentCache`: remove the snapshot. -/
def clearContentCache (st : LocalState) : LocalState :=
  { st with cache := none }

/-- `cacheStorage.getContentCache`: absent snapshot reads as `[]`; an
expired one (`now - timestamp > maxAge`) is purged and reads as `[]`;
otherwise the stored items are returned.  Returns the items and the
possibly-purged state. -/
def getContentCache (st : LocalState) (now : Nat) : List ContentItem × LocalState :=
  match st.cache with
  | none => ([], st)
  | some cd =>
    if cd.maxAge < now - cd.timestamp then ([], clearContentCache st)
    else (cd.contents, st)

/-! ## Fallible write wrappers (the try/catch shape of the source).
`writeOk` is whether the underlying `AsyncStorage.setItem` succeeds. -/

/-- `contentStorage.saveContent` with its try/catch: the catch block
re-throws (`throw error`), so a failing write surfaces as an error. -/
def saveContentF (st : LocalState) (c : ContentItem) (writeOk : Bool) :
    Except String LocalState :=
  if writeOk then .ok { st with content := saveContentPure st.content c }
  else .error "Failed to save content"

/-- Partial<SyncStatus>: each field optionally overridden. -/
structure SyncStatusPatch where
  last_sync : Option (Option Nat) := none
  pending_uploads : Option (List String) := none
  pending_deletions : Option (List String) := none
  is_online : Option Bool := none

/-- `{ ...current, ...status }`. -/
def applyPatch (s : SyncStatus) (p : SyncStatusPatch) : SyncStatus :=
  { last_sync := p.last_sync.getD s.last_sync
    pending_uploads := p.pending_uploads.getD s.pending_uploads
    pending_deletions := p.pending_deletions.getD s.pending_deletions
    is_online := p.is_online.getD s.is_online }

/-- `syncStorage.saveSyncStatus` with its try/catch: the catch block only
logs (`console.error`) and does NOT re-throw, so a failing write is
swallowed and the caller observes success with the state unchanged. -/
def saveSyncStatusF (st : LocalState) (p : SyncStatusPatch) (writeOk : Bool) :
    Except String LocalState :=
  if writeOk then .ok { st with syncStatus := applyPatch st.syncStatus p }
  else .ok st

/-- `cacheStorage.saveContentCache` with its try/catch: the catch block
re-throws, so a failing write surfaces as an error. -/
def saveContentCacheF (st : LocalState) (items : List ContentItem) (now : Nat)
    (writeOk : Bool) : Except String LocalState :=
  if writeOk then .ok (saveContentCachePure st items now)
  else .error "Failed to save content cache"

/-! ## SyncManager -/

/-- Result object returned when `syncContent` rejects a sync attempt
(`isSyncing || !isOnline`). -/
def rejectedResult : SyncResult :=
  { success := false, uploaded := 0, downloaded := 0, failed := 0,
    errors := ["Sync already in progress or offline"] }

/-- The result object `syncContent` initializes before the phases run. -/
def initSyncResult : SyncResult :=
  { success := true, uploaded := 0, downloaded := 0, failed := 0, errors := [] }

/-- The message pushed for a failed upload:
`` `Upload failed for ${content.title}: ${error.message}` ``. -/
def uploadErrorMsg (c : ContentItem) (msg : String) : String :=
  "Upload failed for " ++ c.title ++ ": " ++ msg

/-- The `for (const content of pendingContent)` loop of
`SyncManager.uploadPendingContent`.  Success: mark the row `synced`, clear
the id from both pending sets, bump `uploaded`.  Failure: mark the row
`failed`, bump `failed`, append one message, continue with the rest.  The
remote-assigned row returned by `createARContent` is discarded (only
`error` is destructured). -/
def uploadLoop (env : RemoteEnv) :
    List ContentItem → LocalState → SyncResult → LocalState × SyncResult
  | [], st, res => (st, res)
  | c :: rest, st, res =>
    match env.uploadOutcome c.id with
    | none =>
      let st1 := updateSyncStatus st c.id SyncStat.synced
      let st2 := { st1 with syncStatus := removeFromPending st1.syncStatus c.id }
      uploadLoop env rest st2 { res with uploaded := res.uploaded + 1 }
    | some msg =>
      let st1 := updateSyncStatus st c.id SyncStat.failed
      uploadLoop env rest st1
        { res with failed := res.failed + 1,
                   errors := res.errors ++ [uploadErrorMsg c msg] }

/-- `SyncManager.uploadPendingContent`: run the upload loop over the rows
whose `sync_status` is `'pending'`. -/
def uploadPendingContent (env : RemoteEnv) (st : LocalState) : LocalState × SyncResult :=
  uploadLoop env (getPendingSyncContent st) st initSyncResult

/-- `{ ...remote, sync_status: 'synced' }`. -/
def markSynced (c : ContentItem) : ContentItem :=
  { c with sync_status := some SyncStat.synced }

/-- The `for (const remote of remoteContent)` loop of
`SyncManager.mergeRemoteContent`.  `localMap` is the snapshot of local
content built before the loop; `st` is the evolving row store. -/
def mergeLoop (localMap : List ContentItem) :
    List ContentItem → List ContentItem → List ContentItem
  | [], st => st
  | r :: rest, st =>
    let st1 :=
      match getContentById localMap r.id with
      | none => saveContentPure st (markSynced r)
      | some l =>
        if l.updated_at < r.updated_at then saveContentPure st (markSynced r) else st
    mergeLoop localMap rest st1

/-- `SyncManager.mergeRemoteContent`: last-writer-wins merge of the remote
user content into the local rows (remote wins only on strictly greater
`updated_at`). -/
def mergeRemoteContent (store : List ContentItem) (remotes : List ContentItem) :
    List ContentItem :=
  mergeLoop store remotes store

/-- `SyncManager.downloadRemoteContent`: fetch the user's remote content and
merge it; then, when a location is known and the nearby fetch succeeds,
replace the public-content cache wholesale.  A user-content error is caught
and appended to the error list; a nearby error is silently skipped. -/
def downloadRemoteContent (env : RemoteEnv) (st : LocalState) (res : SyncResult) :
    LocalState × SyncResult :=
  match env.userContent with
  | .error msg => (st, { res with errors := res.errors ++ ["Download failed: " ++ msg] })
  | .ok userContent =>
    let st1 := { st with content := mergeRemoteContent st.content userContent }
    let res1 := { res with downloaded := res.downloaded + userContent.length }
    if env.currentLocation then
      match env.nearbyContent with
      | .error _ => (st1, res1)
      | .ok nearby => (saveContentCachePure st1 nearby env.now, res1)
    else (st1, res1)

/-- `SyncManager.syncContent`: reject when already syncing or offline
(returning `rejectedResult` with no state change); otherwise run upload,
download, stamp `last_sync`, and set `success` iff the error list is
empty. -/
def syncContent (env : RemoteEnv) (m : ManagerState) : ManagerState × SyncResult :=
  if m.isSyncing || !m.isOnline then (m, rejectedResult)
  else
    let up := uploadPendingContent env m.store
    let down := downloadRemoteContent env up.1 up.2
    let st3 := updateLastSync down.1 env.now
    let res3 := { down.2 with success := down.2.errors.isEmpty }
    ({ m with store := st3, isSyncing := false }, res3)

/-- `SyncManager.triggerAutoSync`: read the durable sync status and sync
only when its `is_online` field is true; errors from the sync are caught
and logged, never surfaced. -/
def triggerAutoSync (env : RemoteEnv) (m : ManagerState) : ManagerState :=
  if m.store.syncStatus.is_online then (syncContent env m).1 else m

/-- The `NetInfo.addEventListener` handler installed by
`SyncManager.initNetworkListener`: record the new reachability in the
in-memory flag (`state.isConnected ?? false`), and on an offline-to-online
transition fire `triggerAutoSync`.  The durable `SyncStatus.is_online`
field is not written here. -/
def handleNetInfoEvent (env : RemoteEnv) (m : ManagerState) (isConnected : Option Bool) :
    ManagerState :=
  let wasOnline := m.isOnline
  let newOnline := isConnected.getD false
  let m1 := { m with isOnline := newOnline }
  if !wasOnline && newOnline then triggerAutoSync env m1 else m1

/-- `SyncManager.deleteContent`: enqueue the deletion, mark the row
`failed`, and when online attempt an immediate remote deletion, clearing
the id from both pending sets on success (the catch block only logs). -/
def deleteContent (m : ManagerState) (id : String) (remoteOk : Bool) : ManagerState :=
  let st1 := { m.store with syncStatus := addPendingDeletion m.store.syncStatus id }
  let st2 := updateSyncStatus st1 id SyncStat.failed
  if m.isOnline then
    if remoteOk then
      { m with store := { st2 with syncStatus := removeFromPending st2.syncStatus id } }
    else { m with store := st2 }
  else { m with store := st2 }

/-- `SyncManager.getAllAvailableContent`: local rows passing the filter
`c.user_id === user?.id || c.sync_status !== 'failed'`, followed by the
cached public content.  Returns the list and the (possibly cache-purged)
state. -/
def getAllAvailableContent (st : LocalState) (user : Option String) (now : Nat) :
    List ContentItem × LocalState :=
  let localContent := getAllContent st
  let userContent := localContent.filter (fun c =>
    decide (some c.user_id = user) || !decide (c.sync_status = some SyncStat.failed))
  let cached := getContentCache st now
  (userContent ++ cached.1, cached.2)

/-! ## Helper lemmas about the row store -/

theorem getContentById_save_self (store : List ContentItem) (c : ContentItem) :
    getContentById (saveContentPure store c) c.id = some c := by
  induction store with
  | nil => simp [saveContentPure, getContentById]
  | cons x xs ih =>
    by_cases h : x.id = c.id
    · simp [saveContentPure, getContentById, h]
    · simp [saveContentPure, getContentById, h, ih]

theorem getContentById_save_other (store : List ContentItem) (c : ContentItem) (id : String)
    (h : id ≠ c.id) :
    getContentById (saveContentPure store c) id = getContentById store id := by
  induction store with
  | nil => simp [saveContentPure, getContentById, Ne.symm h]
  | cons x xs ih =>
    by_cases hx : x.id = c.id
    · have hxid : x.id ≠ id := by
        rw [hx]; exact Ne.symm h
      simp [saveContentPure, getContentById, hx, hxid, Ne.symm h]
    · simp [saveContentPure, getContentById, hx, ih]

theorem getContentById_id (store : List ContentItem) (id : String) (c : ContentItem)
    (h : getContentById store id = some c) : c.id = id := by
  induction store with
  | nil => cases h
  | cons x xs ih =>
    unfold getContentById at h
    split at h
    · cases h
      assumption
    · exact ih h

theorem getContentById_of_mem (store : List ContentItem) (c : ContentItem)
    (hnd : (store.map (fun x => x.id)).Nodup) (hc : c ∈ store) :
    getContentById store c.id = some c := by
  induction store with
  | nil => cases hc
  | cons x xs ih =>
    rw [List.map_cons, List.nodup_cons] at hnd
    rcases List.mem_cons.mp hc with rfl | hmem
    · simp [getContentById]
    · have hx : x.id ≠ c.id := by
        intro he
        exact hnd.1 (he ▸ List.mem_map_of_mem (fun y => y.id) hmem)
    
      simp [getContentById, hx, ih hnd.2 hmem]

theorem updateSyncStatus_syncStatus (st : LocalState) (id : String) (s : SyncStat) :
    (updateSyncStatus st id s).syncStatus = st.syncStatus := by
  unfold updateSyncStatus
  cases getContentById st.content id <;> rfl

theorem updateSyncStatus_cache (st : LocalState) (id : String) (s : SyncStat) :
    (updateSyncStatus st id s).cache = st.cache := by
  unfold updateSyncStatus
  cases getContentById st.content id <;> rfl

theorem updateSyncStatus_lookup_other (st : LocalState) (cid id : String) (s : SyncStat)
    (h : id ≠ cid) :
    getContentById (updateSyncStatus st cid s).content id = getContentById st.content id := by
  unfold updateSyncStatus
  cases hc : getContentById st.content cid with
  | none => rfl
  | some c =>
    have hcid : c.id = cid := getContentById_id _ _ _ hc
    have : id ≠ (markStatus c s).id := by
      simpa [markStatus, hcid] using h
    simpa using getContentById_save_other st.content (markStatus c s) id this

/-! ## Permutation facts about the `getAllContent` sort -/

theorem insertByCreatedDesc_perm (c : ContentItem) (l : List ContentItem) :
    List.Perm (insertByCreatedDesc c l) (c :: l) := by
  induction l with
  | nil => simp [insertByCreatedDesc]
  | cons x xs ih =>
    by_cases h : x.created_at ≤ c.created_at
    · simp [insertByCreatedDesc, h]
    · simp only [insertByCreatedDesc, h, if_neg]
      exact List.Perm.trans (List.Perm.cons x ih) (List.Perm.swap c x xs)

theorem sortByCreatedDesc_perm (l : List ContentItem) :
    List.Perm (sortByCreatedDesc l) l := by
  induction l with
  | nil => simp [sortByCreatedDesc]
  | cons x xs ih =>
    exact List.Perm.trans (insertByCreatedDesc_perm x (sortByCreatedDesc xs))
      (List.Perm.cons x ih)

theorem mem_getAllContent (st : LocalState) (c : ContentItem) :
    c ∈ getAllContent st ↔ c ∈ st.content :=
  (sortByCreatedDesc_perm st.content).mem_iff

theorem getAllContent_ids_nodup (st : LocalState)
    (h : (st.content.map (fun x => x.id)).Nodup) :
    ((getAllContent st).map (fun x => x.id)).Nodup :=
  (((sortByCreatedDesc_perm st.content).map (fun x => x.id)).nodup_iff).mpr h

theorem getPendingSyncContent_ids_nodup (st : LocalState)
    (h : (st.content.map (fun x => x.id)).Nodup) :
    ((getPendingSyncContent st).map (fun x => x.id)).Nodup :=
  ((List.filter_sublist (getAllContent st)).map (fun x : ContentItem => x.id)).nodup
    (getAllContent_ids_nodup st h)

theorem getPendingSyncContent_mem (st : LocalState) (c : ContentItem)
    (h : c ∈ getPendingSyncContent st) : c ∈ st.content :=
  (mem_getAllContent st c).mp (List.mem_of_mem_filter h)

/-! ## Upload-loop lemmas -/

theorem uploadLoop_is_online (env : RemoteEnv) (pend : List ContentItem) :
    ∀ st res, ((uploadLoop env pend st res).1).syncStatus.is_online
      = st.syncStatus.is_online := by
  induction pend with
  | nil => intro st res; rfl
  | cons c rest ih =>
    intro st res
    cases h : env.uploadOutcome c.id with
    | none =>
      simp only [uploadLoop, h]
      rw [ih]
      simp [removeFromPending, updateSyncStatus_syncStatus]
    | some msg =>
      simp only [uploadLoop, h]
      rw [ih, updateSyncStatus_syncStatus]

theorem uploadLoop_counts (env : RemoteEnv) (pend : List ContentItem) :
    ∀ st res, (uploadLoop env pend st res).2.uploaded + (uploadLoop env pend st res).2.failed
      = res.uploaded + res.failed + pend.length := by
  induction pend with
  | nil => intro st res; simp [uploadLoop]
  | cons c rest ih =>
    intro st res
    cases h : env.uploadOutcome c.id with
    | none => simp only [uploadLoop, h]; rw [ih]; simp; omega
    | some msg => simp only [uploadLoop, h]; rw [ih]; simp; omega

theorem uploadLoop_lookup_other (env : RemoteEnv) (pend : List ContentItem) :
    ∀ st res id, (∀ c ∈ pend, c.id ≠ id) →
      getContentById (uploadLoop env pend st res).1.content id
        = getContentById st.content id := by
  induction pend with
  | nil => intro st res id _; rfl
  | cons c rest ih =>
    intro st res id hne
    have hcid : id ≠ c.id := Ne.symm (hne c (List.mem_cons_self c rest))
    have hrest : ∀ x ∈ rest, x.id ≠ id := fun x hx => hne x (List.mem_cons_of_mem c hx)
    cases h : env.uploadOutcome c.id with
    | none =>
      simp only [uploadLoop, h]
      rw [ih _ _ _ hrest]
      exact updateSyncStatus_lookup_other st c.id id SyncStat.synced hcid
    | some msg =>
      simp only [uploadLoop, h]
      rw [ih _ _ _ hrest]
      exact updateSyncStatus_lookup_other st c.id id SyncStat.failed hcid

theorem uploadLoop_spec (env : RemoteEnv) (pend : List ContentItem) :
    ∀ st res,
      (pend.map (fun c => c.id)).Nodup →
      (∀ c ∈ pend, getContentById st.content c.id = some c) →
      (uploadLoop env pend st res).2.uploaded
          = res.uploaded + (pend.filter (fun c => (env.uploadOutcome c.id).isNone)).length
      ∧ (uploadLoop env pend st res).2.failed
          = res.failed + (pend.filter (fun c => (env.uploadOutcome c.id).isSome)).length
      ∧ (uploadLoop env pend st res).2.errors
          = res.errors ++ pend.filterMap
              (fun c => (env.uploadOutcome c.id).map (uploadErrorMsg c))
      ∧ (∀ c ∈ pend,
          getContentById (uploadLoop env pend st res).1.content c.id
            = some (markStatus c
                (if (env.uploadOutcome c.id).isNone then SyncStat.synced else SyncStat.failed))) := by
  induction pend with
  | nil =>
    intro st res _ _
    refine ⟨by simp [uploadLoop], by simp [uploadLoop], by simp [uploadLoop], ?_⟩
    intro c hc
    cases hc
  | cons c rest ih =>
    intro st res hnd hlk
    rw [List.map_cons, List.nodup_cons] at hnd
    have hlkc : getContentById st.content c.id = some c := hlk c (List.mem_cons_self c rest)
    have hlkrest : ∀ x ∈ rest, getContentById st.content x.id = some x :=
      fun x hx => hlk x (List.mem_cons_of_mem c hx)
    have hrestne : ∀ x ∈ rest, x.id ≠ c.id := by
      intro x hx he
      exact hnd.1 (he ▸ List.mem_map_of_mem (fun y => y.id) hx)
    cases h : env.uploadOutcome c.id with
    | none =>
      simp only [uploadLoop, h]
      have hcontent :
          (updateSyncStatus st c.id SyncStat.synced).content
            = saveContentPure st.content (markStatus c SyncStat.synced) := by
        unfold updateSyncStatus
        rw [hlkc]
      set st2 : LocalState :=
        { updateSyncStatus st c.id SyncStat.synced with
          syncStatus := removeFromPending (updateSyncStatus st c.id SyncStat.synced).syncStatus c.id } with hst2
      have hst2content : st2.content = saveContentPure st.content (markStatus c SyncStat.synced) := by
        rw [hst2]
        exact hcontent
      have hlkrest2 : ∀ x ∈ rest, getContentById st2.content x.id = some x := by
        intro x hx
        rw [hst2content]
        have hxne : x.id ≠ (markStatus c SyncStat.synced).id := by
          simpa [markStatus] using hrestne x hx
        rw [getContentById_save_other st.content _ x.id hxne]
        exact hlkrest x hx
      obtain ⟨h1, h2, h3, h4⟩ := ih st2 { res with uploaded := res.uploaded + 1 } hnd.2 hlkrest2
      refine ⟨?_, ?_, ?_, ?_⟩
      · rw [h1]; simp [List.filter_cons, h]; omega
      · rw [h2]; simp [List.filter_cons, h]
      · rw [h3]; simp [List.filterMap_cons, h]
      · intro x hx
        rcases List.mem_cons.mp hx with rfl | hxrest
        · rw [uploadLoop_lookup_other env rest st2 _ x.id (fun y hy => hrestne y hy)]
          rw [hst2content, h]
          simpa [markStatus] using
            getContentById_save_self st.content (markStatus x SyncStat.synced)
        · exact h4 x hxrest
    | some msg =>
      simp only [uploadLoop, h]
      have hcontent :
          (updateSyncStatus st c.id SyncStat.failed).content
            = saveContentPure st.content (markStatus c SyncStat.failed) := by
        unfold updateSyncStatus
        rw [hlkc]
      have hlkrest2 : ∀ x ∈ rest,
          getContentById (updateSyncStatus st c.id SyncStat.failed).content x.id = some x := by
        intro x hx
        rw [hcontent]
        have hxne : x.id ≠ (markStatus c SyncStat.failed).id := by
          simpa [markStatus] using hrestne x hx
        rw [getContentById_save_other st.content _ x.id hxne]
        exact hlkrest x hx
      obtain ⟨h1, h2, h3, h4⟩ := ih (updateSyncStatus st c.id SyncStat.failed)
        { res with failed := res.failed + 1,
                   errors := res.errors ++ [uploadErrorMsg c msg] } hnd.2 hlkrest2
      refine ⟨?_, ?_, ?_, ?_⟩
      · rw [h1]; simp [List.filter_cons, h]
      · rw [h2]; simp [List.filter_cons, h]; omega
      · rw [h3]; simp [List.filterMap_cons, h]
      · intro x hx
        rcases List.mem_cons.mp hx with rfl | hxrest
        · rw [uploadLoop_lookup_other env rest _ _ x.id (fun y hy => hrestne y hy)]
          rw [hcontent, h]
          simpa [markStatus] using
            getContentById_save_self st.content (markStatus x SyncStat.failed)
        · exact h4 x hxrest

/-! ## Preservation lemmas for the sync cycle -/

theorem downloadRemoteContent_syncStatus (env : RemoteEnv) (st : LocalState) (res : SyncResult) :
    (downloadRemoteContent env st res).1.syncStatus = st.syncStatus := by
  cases hu : env.userContent with
  | error msg => simp [downloadRemoteContent, hu]
  | ok uc =>
    cases hl : env.currentLocation with
    | false => simp [downloadRemoteContent, hu, hl]
    | true =>
      cases hn : env.nearbyContent with
      | error m => simp [downloadRemoteContent, hu, hl, hn]
      | ok nb => simp [downloadRemoteContent, hu, hl, hn, saveContentCachePure]

theorem updateLastSync_is_online (st : LocalState) (now : Nat) :
    (updateLastSync st now).syncStatus.is_online = st.syncStatus.is_online := rfl

theorem syncContent_is_online (env : RemoteEnv) (m : ManagerState) :
    (syncContent env m).1.store.syncStatus.is_online = m.store.syncStatus.is_online := by
  cases hc : (m.isSyncing || !m.isOnline) with
  | true => simp [syncContent, hc]
  | false =>
    simp only [syncContent, hc, Bool.false_eq_true, if_false]
    rw [updateLastSync_is_online, downloadRemoteContent_syncStatus]
    exact uploadLoop_is_online env (getPendingSyncContent m.store) m.store initSyncResult

theorem syncContent_isOnline (env : RemoteEnv) (m : ManagerState) :
    (syncContent env m).1.isOnline = m.isOnline := by
  cases hc : (m.isSyncing || !m.isOnline) with
  | true => simp [syncContent, hc]
  | false => simp only [syncContent, hc, Bool.false_eq_true, if_false]

theorem triggerAutoSync_is_online (env : RemoteEnv) (m : ManagerState) :
    (triggerAutoSync env m).store.syncStatus.is_online = m.store.syncStatus.is_online := by
  unfold triggerAutoSync
  split
  · exact syncContent_is_online env m
  · rfl

theorem triggerAutoSync_isOnline (env : RemoteEnv) (m : ManagerState) :
    (triggerAutoSync env m).isOnline = m.isOnline := by
  unfold triggerAutoSync
  split
  · exact syncContent_isOnline env m
  · rfl

/-! ## Sample fixtures used by witnesses and counterexamples -/

/-- A sync-status record with one pending upload `"a"`. -/
def sampleStatus : SyncStatus :=
  { last_sync := none, pending_uploads := ["a"], pending_deletions := [], is_online := true }

/-- An offline manager over an empty row store carrying `sampleStatus`. -/
def sampleOfflineMgr : ManagerState :=
  { isOnline := false, isSyncing := false,
    store := { content := [], syncStatus := sampleStatus, cache := none } }

/-- A benign remote environment: every upload succeeds, the remote user
content is empty, no location is known. -/
def sampleEnv : RemoteEnv :=
  { uploadOutcome := fun _ => none, userContent := .ok [], currentLocation := false,
    nearbyContent := .ok [], now := 1000 }

/-- A manager with a sync already in flight. -/
def sampleBusyMgr : ManagerState :=
  { isOnline := true, isSyncing := true,
    store := { content := [], syncStatus := sampleStatus, cache := none } }

/-! ## Claims -/

/-- C1, counterexample.  The claim says that after
`syncStorage.addPendingDeletion(id)` the id is no longer in
`pending_uploads`.  With `pending_uploads = ["a"]`, enqueueing the deletion
of `"a"` leaves `"a"` in `pending_uploads`: `addPendingDeletion` never
touches the uploads set. -/
theorem claim_C1_counterexample :
    "a" ∈ (addPendingDeletion sampleStatus "a").pending_uploads := by
  decide

/-- C1, amended.  `addPendingDeletion id` puts `id` into
`pending_deletions` but leaves `pending_uploads` exactly as it was (a
pending upload for the same id survives); likewise the orchestrator's
`deleteContent`, when offline, leaves `pending_uploads` unchanged while
recording the deletion (only a successful immediate remote deletion clears
the id — from both sets — via `removeFromPending`). -/
theorem claim_C1_amended (s : SyncStatus) (id : String) (m : ManagerState) (rOk : Bool)
    (hoff : m.isOnline = false) :
    id ∈ (addPendingDeletion s id).pending_deletions
    ∧ (addPendingDeletion s id).pending_uploads = s.pending_uploads
    ∧ (deleteContent m id rOk).store.syncStatus.pending_uploads
        = m.store.syncStatus.pending_uploads
    ∧ id ∈ (deleteContent m id rOk).store.syncStatus.pending_deletions := by
  have hmem : ∀ s' : SyncStatus, id ∈ (addPendingDeletion s' id).pending_deletions := by
    intro s'
    unfold addPendingDeletion
    split
    · assumption
    · simp
  have hupl : ∀ s' : SyncStatus,
      (addPendingDeletion s' id).pending_uploads = s'.pending_uploads := by
    intro s'
    unfold addPendingDeletion
    split <;> rfl
  have hdel : (deleteContent m id rOk).store.syncStatus
      = addPendingDeletion m.store.syncStatus id := by
    unfold deleteContent
    simp only [hoff, Bool.false_eq_true, if_false]
    exact updateSyncStatus_syncStatus _ id SyncStat.failed
  refine ⟨hmem s, hupl s, ?_, ?_⟩
  · rw [hdel]; exact hupl m.store.syncStatus
  · rw [hdel]; exact hmem m.store.syncStatus

/-- C1, witness for the amended claim at `id = "a"`, a status with
`pending_uploads = ["a"]`, and an offline manager. -/
theorem claim_C1_witness :
    "a" ∈ (addPendingDeletion sampleStatus "a").pending_deletions
    ∧ (addPendingDeletion sampleStatus "a").pending_uploads = sampleStatus.pending_uploads
    ∧ (deleteContent sampleOfflineMgr "a" true).store.syncStatus.pending_uploads
        = sampleOfflineMgr.store.syncStatus.pending_uploads
    ∧ "a" ∈ (deleteContent sampleOfflineMgr "a" true).store.syncStatus.pending_deletions :=
  claim_C1_amended sampleStatus "a" sampleOfflineMgr true rfl

/-- C3, confirmed.  When a sync is already in flight or the manager is
offline, `syncContent` returns exactly the sentinel result
(`success = false`, all counters zero, one sentinel error) and the whole
manager state — in-memory flags, content rows, pending sets, cache,
`last_sync` — is returned unchanged. -/
theorem claim_C3 (env : RemoteEnv) (m : ManagerState)
    (h : m.isSyncing = true ∨ m.isOnline = false) :
    syncContent env m = (m, rejectedResult) := by
  unfold syncContent
  rcases h with h | h <;> simp [h]

/-- C3, witness: a manager with `isSyncing = true` is rejected with the
sentinel result and unchanged state. -/
theorem claim_C3_witness :
    syncContent sampleEnv sampleBusyMgr = (sampleBusyMgr, rejectedResult) :=
  claim_C3 sampleEnv sampleBusyMgr (Or.inl rfl)

/-- C7, counterexample.  The claim says every failing durable-store write
surfaces as an error; but `syncStorage.saveSyncStatus` catches its write
failure and only logs it, so the caller observes plain success (`Except.ok`
with the state unchanged) on a failing sync-metadata write. -/
theorem claim_C7_counterexample :
    saveSyncStatusF { content := [], syncStatus := sampleStatus, cache := none }
        { last_sync := some (some 5) } false
      = Except.ok { content := [], syncStatus := sampleStatus, cache := none } := by
  rfl

/-- C7, amended.  Failing writes of content rows
(`contentStorage.saveContent`) and of the cache snapshot
(`cacheStorage.saveContentCache`) re-throw and so surface to the caller,
but a failing write of the sync-metadata record
(`syncStorage.saveSyncStatus`) is swallowed: the caller gets success and
the durable record is simply left unchanged. -/
theorem claim_C7_amended (st : LocalState) (c : ContentItem) (items : List ContentItem)
    (now : Nat) (p : SyncStatusPatch) :
    saveContentF st c false = Except.error "Failed to save content"
    ∧ saveContentCacheF st items now false = Except.error "Failed to save content cache"
    ∧ saveSyncStatusF st p false = Except.ok st
    ∧ saveContentF st c true = Except.ok { st with content := saveContentPure st.content c }
    ∧ saveSyncStatusF st p true = Except.ok { st with syncStatus := applyPatch st.syncStatus p } :=
  ⟨rfl, rfl, rfl, rfl, rfl⟩

/-- C10, confirmed.  For a stored snapshot: when `now - capturedAt`
exceeds `maxAgeMs` the read returns `[]` and purges the snapshot (any
subsequent read finds no snapshot and also returns `[]`); otherwise the
read returns the stored items and leaves the state untouched. -/
theorem claim_C10 (st : LocalState) (now : Nat) (cd : CacheData)
    (h : st.cache = some cd) :
    (cd.maxAge < now - cd.timestamp →
      getContentCache st now = ([], clearContentCache st)
      ∧ ∀ m, getContentCache (getContentCache st now).2 m
          = ([], (getContentCache st now).2))
    ∧ (now - cd.timestamp ≤ cd.maxAge →
      getContentCache st now = (cd.contents, st)) := by
  constructor
  · intro hexp
    have hread : getContentCache st now = ([], clearContentCache st) := by
      unfold getContentCache
      rw [h]
      simp [hexp]
    refine ⟨hread, ?_⟩
    intro m
    rw [hread]
    simp [getContentCache, clearContentCache]
  · intro hval
    unfold getContentCache
    rw [h]
    simp [Nat.not_lt.mpr hval]

/-- An expired cache snapshot: captured at time 0 with `maxAge = 5`. -/
def sampleExpiredCd : CacheData := { contents := [], timestamp := 0, maxAge := 5 }

/-- A state holding the expired snapshot. -/
def sampleExpiredSt : LocalState :=
  { content := [], syncStatus := sampleStatus, cache := some sampleExpiredCd }

/-- C10, witness: reading the expired snapshot at `now = 10` purges it;
reading it at `now = 3` returns the stored items unchanged. -/
theorem claim_C10_witness :
    getContentCache sampleExpiredSt 10 = ([], clearContentCache sampleExpiredSt)
    ∧ getContentCache sampleExpiredSt 3 = (sampleExpiredCd.contents, sampleExpiredSt) :=
  ⟨((claim_C10 sampleExpiredSt 10 sampleExpiredCd rfl).1 (by decide)).1,
   (claim_C10 sampleExpiredSt 3 sampleExpiredCd rfl).2 (by decide)⟩

/-- C2, confirmed.  Per remote item, the merge of downloaded user content
is last-writer-wins with strict comparison: when no local row with the same
id exists, or the remote `updated_at` is strictly greater, the stored row
becomes the remote item with `sync_status = synced`; when the local
`updated_at` is greater than or equal, the row store is returned entirely
unchanged (the local copy is kept byte-for-byte). -/
theorem claim_C2 (store : List ContentItem) (r : ContentItem) :
    (getContentById store r.id = none →
      getContentById (mergeRemoteContent store [r]) r.id = some (markSynced r))
    ∧ (∀ l, getContentById store r.id = some l → l.updated_at < r.updated_at →
      getContentById (mergeRemoteContent store [r]) r.id = some (markSynced r))
    ∧ (∀ l, getContentById store r.id = some l → r.updated_at ≤ l.updated_at →
      mergeRemoteContent store [r] = store) := by
  refine ⟨?_, ?_, ?_⟩
  · intro h
    have hm : mergeRemoteContent store [r] = saveContentPure store (markSynced r) := by
      simp [mergeRemoteContent, mergeLoop, h]
    rw [hm]
    exact getContentById_save_self store (markSynced r)
  · intro l hl hlt
    have hm : mergeRemoteContent store [r] = saveContentPure store (markSynced r) := by
      simp [mergeRemoteContent, mergeLoop, hl, hlt]
    rw [hm]
    exact getContentById_save_self store (markSynced r)
  · intro l hl hge
    simp [mergeRemoteContent, mergeLoop, hl, Nat.not_lt.mpr hge]

/-- A remote item with `updated_at = 10`. -/
def sampleRemote : ContentItem :=
  { id := "x", user_id := "u1", title := "R", description := none, type := CType.marker,
    position_lat := 0, position_lng := 0, position_alt := none, data := "rdata",
    is_public := true, created_at := 1, updated_at := 10, sync_status := none,
    local_id := none }

/-- A local row with the same id and `updated_at = 20` (newer than the
remote). -/
def sampleLocalNewer : ContentItem :=
  { id := "x", user_id := "u1", title := "L", description := none, type := CType.marker,
    position_lat := 0, position_lng := 0, position_alt := none, data := "ldata",
    is_public := true, created_at := 1, updated_at := 20,
    sync_status := some SyncStat.pending, local_id := none }

/-- C2, witness: merging into an empty store installs the remote item
marked synced; merging against a strictly newer local copy leaves the
store unchanged. -/
theorem claim_C2_witness :
    getContentById (mergeRemoteContent [] [sampleRemote]) sampleRemote.id
      = some (markSynced sampleRemote)
    ∧ mergeRemoteContent [sampleLocalNewer] [sampleRemote] = [sampleLocalNewer] :=
  ⟨(claim_C2 [] sampleRemote).1 rfl,
   (claim_C2 [sampleLocalNewer] sampleRemote).2.2 sampleLocalNewer (by decide) (by decide)⟩

/-- The tombstoned row of the C5 scenario: owned by user `"u1"` and marked
`failed` by a queued deletion. -/
def tombstoneB : ContentItem :=
  { id := "b", user_id := "u1", title := "B", description := none, type := CType.marker,
    position_lat := 0, position_lng := 0, position_alt := none, data := "bdata",
    is_public := false, created_at := 2, updated_at := 2,
    sync_status := some SyncStat.failed, local_id := none }

/-- The state of the C5 scenario: the tombstoned row is stored and its
deletion is queued. -/
def tombstoneSt : LocalState :=
  { content := [tombstoneB],
    syncStatus := { last_sync := none, pending_uploads := [], pending_deletions := ["b"],
                    is_online := true },
    cache := none }

/-- C5, code bug.  The spec (and the source's own comment at
`deleteContent`: "Mark as failed locally so it doesn't appear in UI") says
a row with `sync_status = failed` is excluded from `listAvailable()`.  But
`getAllAvailableContent` filters with
`c.user_id === user?.id || c.sync_status !== 'failed'`, so the current
user's own tombstoned row passes the first disjunct and IS returned: the
deleted item `B` still appears in the available-content list. -/
theorem claim_C5 :
    tombstoneB ∈ (getAllAvailableContent tombstoneSt (some "u1") 0).1 := by
  decide

/-- C9, counterexample.  The claim says every observed connectivity
transition persists the new reachability into the durable
`SyncMetadata.isOnline`.  On an online-to-offline transition the handler
records `false` in the in-memory flag, but the durable `is_online` field
stays `true`: nothing in the listener writes it. -/
theorem claim_C9_counterexample :
    (handleNetInfoEvent sampleEnv sampleBusyMgr (some false)).isOnline = false
    ∧ (handleNetInfoEvent sampleEnv sampleBusyMgr (some false)).store.syncStatus.is_online
        = true := by
  constructor <;> rfl

/-- C9, amended.  On every connectivity event the handler stores
`isConnected ?? false` in the in-memory flag only; the durable
`SyncMetadata.is_online` field is never written by the listener (nor by
the sync it may trigger).  An offline-to-online transition fires
`triggerAutoSync` (which syncs only when the durable `is_online` flag is
set, and whose errors are logged, not surfaced — it returns no result). -/
theorem claim_C9_amended (env : RemoteEnv) (m : ManagerState) (c : Option Bool) :
    (handleNetInfoEvent env m c).isOnline = c.getD false
    ∧ (handleNetInfoEvent env m c).store.syncStatus.is_online
        = m.store.syncStatus.is_online
    ∧ ((!m.isOnline && c.getD false) = true →
        handleNetInfoEvent env m c = triggerAutoSync env { m with isOnline := true }) := by
  refine ⟨?_, ?_, ?_⟩
  · simp only [handleNetInfoEvent]
    split
    · rw [triggerAutoSync_isOnline]
    · rfl
  · simp only [handleNetInfoEvent]
    split
    · rw [triggerAutoSync_is_online]
    · rfl
  · intro hc
    have hgd : c.getD false = true := by
      have h2 := hc
      simp only [Bool.and_eq_true] at h2
      exact h2.2
    simp only [handleNetInfoEvent]
    rw [if_pos hc, hgd]

/-- A manager that is offline in memory, with auto-sync enabled in the
durable record. -/
def sampleOfflineOnMgr : ManagerState :=
  { isOnline := false, isSyncing := false,
    store := { content := [], syncStatus := sampleStatus, cache := none } }

/-- C9, witness for the amended claim: an offline-to-online event flips
only the in-memory flag, leaves the durable field untouched, and routes
through `triggerAutoSync`. -/
theorem claim_C9_witness :
    (handleNetInfoEvent sampleEnv sampleOfflineOnMgr (some true)).isOnline = true
    ∧ (handleNetInfoEvent sampleEnv sampleOfflineOnMgr (some true)).store.syncStatus.is_online
        = sampleOfflineOnMgr.store.syncStatus.is_online
    ∧ handleNetInfoEvent sampleEnv sampleOfflineOnMgr (some true)
        = triggerAutoSync sampleEnv { sampleOfflineOnMgr with isOnline := true } :=
  ⟨(claim_C9_amended sampleEnv sampleOfflineOnMgr (some true)).1,
   (claim_C9_amended sampleEnv sampleOfflineOnMgr (some true)).2.1,
   (claim_C9_amended sampleEnv sampleOfflineOnMgr (some true)).2.2 rfl⟩

/-- A row marked `failed` by an earlier cycle's upload error, whose id is
still in the pending-uploads set. -/
def sampleFailedItem : ContentItem :=
  { id := "x", user_id := "u1", title := "X", description := none, type := CType.marker,
    position_lat := 0, position_lng := 0, position_alt := none, data := "xdata",
    is_public := false, created_at := 1, updated_at := 1,
    sync_status := some SyncStat.failed, local_id := none }

/-- Store holding only the failed row, with `"x"` still pending upload. -/
def failedStore : LocalState :=
  { content := [sampleFailedItem],
    syncStatus := { last_sync := none, pending_uploads := ["x"], pending_deletions := [],
                    is_online := true },
    cache := none }

/-- An online, idle manager over `failedStore`: the next sync cycle is
admitted. -/
def failedMgr : ManagerState :=
  { isOnline := true, isSyncing := false, store := failedStore }

/-- C4, counterexample.  The claim says an admitted cycle attempts a push
for every id in the pending-uploads set, so a previously failed item is
retried.  Here `"x"` is in `pending_uploads`, the cycle is admitted
(online, not syncing), every upload would succeed — yet the cycle attempts
nothing: `uploaded = 0`, `failed = 0`, and the row is still stored
`failed`, because the upload phase selects rows by
`sync_status === 'pending'`, not by the pending-uploads set. -/
theorem claim_C4_counterexample :
    "x" ∈ failedMgr.store.syncStatus.pending_uploads
    ∧ failedMgr.isSyncing = false
    ∧ failedMgr.isOnline = true
    ∧ (syncContent sampleEnv failedMgr).2.uploaded = 0
    ∧ (syncContent sampleEnv failedMgr).2.failed = 0
    ∧ getContentById (syncContent sampleEnv failedMgr).1.store.content "x"
        = some sampleFailedItem := by
  decide

/-- C4, amended.  The upload phase attempts a push exactly for the rows
whose `sync_status` is `pending` (one attempt per such row — uploaded and
failed counters sum to their number); the pending-uploads id set is not
consulted, so when no row has status `pending` the phase does nothing even
if ids (e.g. of rows marked `failed` by an earlier cycle) remain queued. -/
theorem claim_C4_amended (env : RemoteEnv) (st : LocalState) :
    (uploadPendingContent env st).2.uploaded + (uploadPendingContent env st).2.failed
      = (getPendingSyncContent st).length
    ∧ (getPendingSyncContent st = [] → uploadPendingContent env st = (st, initSyncResult)) := by
  constructor
  · have h := uploadLoop_counts env (getPendingSyncContent st) st initSyncResult
    simpa [uploadPendingContent, initSyncResult] using h
  · intro h
    unfold uploadPendingContent
    rw [h]
    rfl

/-- C4, witness for the amended claim at `failedStore`: no row is
`pending`, so the phase is a no-op despite `pending_uploads = ["x"]`. -/
theorem claim_C4_witness :
    ((uploadPendingContent sampleEnv failedStore).2.uploaded
        + (uploadPendingContent sampleEnv failedStore).2.failed
      = (getPendingSyncContent failedStore).length)
    ∧ uploadPendingContent sampleEnv failedStore = (failedStore, initSyncResult) :=
  ⟨(claim_C4_amended sampleEnv failedStore).1,
   (claim_C4_amended sampleEnv failedStore).2 (by decide)⟩

/-- C6, confirmed.  During the upload phase (over a store with distinct row
ids): every pending row whose push fails ends up stored `failed`, each
failure bumps the `failed` counter and appends exactly one human-readable
message, and the loop continues — every pending row whose push succeeds
ends up stored `synced`; `uploaded`/`failed` count exactly the successful
and failing pushes. -/
theorem claim_C6 (env : RemoteEnv) (st : LocalState)
    (hnd : (st.content.map (fun x => x.id)).Nodup) :
    (uploadPendingContent env st).2.uploaded
        = ((getPendingSyncContent st).filter
            (fun c => (env.uploadOutcome c.id).isNone)).length
    ∧ (uploadPendingContent env st).2.failed
        = ((getPendingSyncContent st).filter
            (fun c => (env.uploadOutcome c.id).isSome)).length
    ∧ (uploadPendingContent env st).2.errors
        = (getPendingSyncContent st).filterMap
            (fun c => (env.uploadOutcome c.id).map (uploadErrorMsg c))
    ∧ ∀ c ∈ getPendingSyncContent st,
        getContentById (uploadPendingContent env st).1.content c.id
          = some (markStatus c
              (if (env.uploadOutcome c.id).isNone then SyncStat.synced
               else SyncStat.failed)) := by
  have hlk : ∀ c ∈ getPendingSyncContent st, getContentById st.content c.id = some c :=
    fun c hc => getContentById_of_mem st.content c hnd (getPendingSyncContent_mem st c hc)
  obtain ⟨h1, h2, h3, h4⟩ := uploadLoop_spec env (getPendingSyncContent st) st initSyncResult
    (getPendingSyncContent_ids_nodup st hnd) hlk
  refine ⟨?_, ?_, ?_, ?_⟩
  · simpa [uploadPendingContent, initSyncResult] using h1
  · simpa [uploadPendingContent, initSyncResult] using h2
  · simpa [uploadPendingContent, initSyncResult] using h3
  · intro c hc
    simpa [uploadPendingContent] using h4 c hc

/-- Pending row `a` (its upload will succeed). -/
def itemA : ContentItem :=
  { id := "a", user_id := "u1", title := "A", description := none, type := CType.marker,
    position_lat := 0, position_lng := 0, position_alt := none, data := "da",
    is_public := false, created_at := 3, updated_at := 3,
    sync_status := some SyncStat.pending, local_id := none }

/-- Pending row `b` (its upload will fail with message `"boom"`). -/
def itemB : ContentItem :=
  { id := "b", user_id := "u1", title := "B", description := none, type := CType.marker,
    position_lat := 0, position_lng := 0, position_alt := none, data := "db",
    is_public := false, created_at := 2, updated_at := 2,
    sync_status := some SyncStat.pending, local_id := none }

/-- Pending row `c` (its upload will succeed). -/
def itemC : ContentItem :=
  { id := "c", user_id := "u1", title := "C", description := none, type := CType.marker,
    position_lat := 0, position_lng := 0, position_alt := none, data := "dc",
    is_public := false, created_at := 1, updated_at := 1,
    sync_status := some SyncStat.pending, local_id := none }

/-- Store with the three pending rows. -/
def threePendingSt : LocalState :=
  { content := [itemA, itemB, itemC],
    syncStatus := { last_sync := none, pending_uploads := ["a", "b", "c"],
                    pending_deletions := [], is_online := true },
    cache := none }

/-- Environment in which only the push of `"b"` fails. -/
def envFailB : RemoteEnv :=
  { uploadOutcome := fun id => if id = "b" then some "boom" else none,
    userContent := .ok [], currentLocation := false, nearbyContent := .ok [], now := 1000 }

/-- C6, witness: three pending rows of which one fails give
`uploaded = 2`, `failed = 1`, exactly one error message, the failing row
stored `failed` and the other two stored `synced`. -/
theorem claim_C6_witness :
    (uploadPendingContent envFailB threePendingSt).2.uploaded = 2
    ∧ (uploadPendingContent envFailB threePendingSt).2.failed = 1
    ∧ (uploadPendingContent envFailB threePendingSt).2.errors
        = [uploadErrorMsg itemB "boom"]
    ∧ getContentById (uploadPendingContent envFailB threePendingSt).1.content itemA.id
        = some (markStatus itemA SyncStat.synced)
    ∧ getContentById (uploadPendingContent envFailB threePendingSt).1.content itemB.id
        = some (markStatus itemB SyncStat.failed)
    ∧ getContentById (uploadPendingContent envFailB threePendingSt).1.content itemC.id
        = some (markStatus itemC SyncStat.synced) := by
  have h := claim_C6 envFailB threePendingSt (by decide)
  exact ⟨h.1.trans (by decide), h.2.1.trans (by decide), h.2.2.1.trans (by decide),
    (h.2.2.2 itemA (by decide)).trans (by decide),
    (h.2.2.2 itemB (by decide)).trans (by decide),
    (h.2.2.2 itemC (by decide)).trans (by decide)⟩

/-- A locally created row: keyed by the generated id `"local_1"`, which is
also recorded in `local_id`. -/
def localItem : ContentItem :=
  { id := "local_1", user_id := "u1", title := "L1", description := none,
    type := CType.marker, position_lat := 0, position_lng := 0, position_alt := none,
    data := "dl", is_public := false, created_at := 1, updated_at := 1,
    sync_status := some SyncStat.pending, local_id := some "local_1" }

/-- Store holding only the locally created row, pending upload. -/
def localSt : LocalState :=
  { content := [localItem],
    syncStatus := { last_sync := none, pending_uploads := ["local_1"],
                    pending_deletions := [], is_online := true },
    cache := none }

/-- C8, counterexample.  The claim says a successful push re-keys (or
re-labels) the local record with the remote-assigned identifier.  After a
successful push of `localItem`, the store consists of exactly the original
row with only `sync_status` flipped to `synced`: it is still keyed by the
locally generated `"local_1"` and still carries `local_id = "local_1"` —
the remote-assigned id returned by `createARContent` is discarded (the
code destructures only `error` from the response). -/
theorem claim_C8_counterexample :
    (uploadPendingContent sampleEnv localSt).1.content
      = [markStatus localItem SyncStat.synced]
    ∧ (markStatus localItem SyncStat.synced).id = "local_1"
    ∧ (markStatus localItem SyncStat.synced).local_id = some "local_1" := by
  decide

/-- C8, amended.  A successful push leaves the local record stored under
its locally generated id with only `sync_status` set to `synced`; the
remote-assigned identifier is never applied to the local record (the
remote copy appears under its remote id only if a later download-merge
saves it as a separate row). -/
theorem claim_C8_amended (env : RemoteEnv) (st : LocalState) (c : ContentItem)
    (hnd : (st.content.map (fun x => x.id)).Nodup)
    (hc : c ∈ getPendingSyncContent st)
    (hok : (env.uploadOutcome c.id).isNone = true) :
    getContentById (uploadPendingContent env st).1.content c.id
      = some (markStatus c SyncStat.synced) := by
  have hlk : ∀ x ∈ getPendingSyncContent st, getContentById st.content x.id = some x :=
    fun x hx => getContentById_of_mem st.content x hnd (getPendingSyncContent_mem st x hx)
  obtain ⟨-, -, -, h4⟩ := uploadLoop_spec env (getPendingSyncContent st) st initSyncResult
    (getPendingSyncContent_ids_nodup st hnd) hlk
  have h := h4 c hc
  rw [hok] at h
  simpa [uploadPendingContent] using h

/-- C8, witness for the amended claim: the pushed row stays under
`"local_1"`, merely marked `synced`. -/
theorem claim_C8_witness :
    getContentById (uploadPendingContent sampleEnv localSt).1.content localItem.id
      = some (markStatus localItem SyncStat.synced) :=
  claim_C8_amended sampleEnv localSt localItem (by decide) (by decide) rfl
